import Mathlib

/-!
Verification development for the krpano tile-acquisition engine
(`src/pix360_krpano/modules.py`).  The Python code is shallowly embedded:
HTTP fetches become an oracle function, the unbounded `while True` probe
loops become fuel-indexed recursions returning `Option` (`none` models
non-termination within the given fuel), and Python exceptions inside the
`try`/`except` blocks become the non-success branches of the embedding.
-/

namespace Pix360

/-- Outcome of one HTTP fetch attempt, as seen by the Python `try` blocks:
`found b` models `res.getcode() == 200` with body `b`; `non200` models an
authoritative non-success status (the `assert res.getcode() == 200` raises);
`transient` models a transport-level exception raised by
`HTTPRequest(url).open()` or `res.read()`. -/
inductive FetchOutcome where
  | found (body : String)
  | non200
  | transient
deriving DecidableEq, Repr

/-- Whether an attempted probe is seen as a success by the `try` block:
`none` models the substitution `schema % (...)` itself raising (no HTTP
request issued); any outcome other than a 200 response is a failure. -/
def probeOk : Option FetchOutcome → Bool
  | some (.found _) => true
  | _ => false

/-- A probe oracle: the composite of schema substitution and HTTP fetch at
coordinates `(face, zoom, row, col)`; `none` means the substitution raised. -/
def Probe : Type := Nat → Nat → Nat → Nat → Option FetchOutcome

/-- Tile coordinates substituted into a schema. -/
structure Coord where
  face : Nat
  zoom : Nat
  row : Nat
  col : Nat
deriving DecidableEq, Repr

/-- Apply a probe oracle to a coordinate record. -/
def pApply (p : Probe) (c : Coord) : Option FetchOutcome :=
  p c.face c.zoom c.row c.col

/-- Number of probe attempts in a trace that issued an actual HTTP request
(those where the substitution did not raise). -/
def issuedCount (p : Probe) (tr : List Coord) : Nat :=
  (tr.filter (fun c => (pApply p c).isSome)).length

/-- A persisted tile record (`File.objects.create(...)` with a
`ContentFile`): an optional file name and the fetched bytes. -/
structure File where
  name : Option String
  content : String
deriving DecidableEq, Repr

/-- The f-string name `f"{tile}_{maxzoom}_{y}_{x}.jpg"` used in `export`. -/
def tileName (face zoom y x : Nat) : String :=
  Nat.repr face ++ "_" ++ Nat.repr zoom ++ "_" ++ Nat.repr y ++ "_" ++ Nat.repr x ++ ".jpg"

/-- The tile record created by one successful fetch in `export`. -/
def mkFile (face zoom y x : Nat) (content : String) : File :=
  ⟨some (tileName face zoom y x), content⟩

/-! Schema normalization (`KRPanoConverter.url_normalize`). -/

/-- Python `url.split("/")` on the character list of the URL. -/
def splitSlash : List Char → List (List Char)
  | [] => [[]]
  | c :: rest =>
    if c = '/' then [] :: splitSlash rest
    else
      match splitSlash rest with
      | p :: ps => (c :: p) :: ps
      | [] => [[c]]

/-- Python `"/".join(parts)` on character lists. -/
def joinSlash : List (List Char) → List Char
  | [] => []
  | [p] => p
  | p :: ps => p ++ '/' :: joinSlash ps

/-- Python `s.rstrip("0123456789")`. -/
def rstripDigitsChars (cs : List Char) : List Char :=
  (cs.reverse.dropWhile Char.isDigit).reverse

/-- Python `%`-formatting restricted to the conversions the schemas use:
each `%i` consumes the next integer argument (decimal rendering), `%%` is a
literal percent sign, any other use of `%` and any argument-count mismatch
raises (`none`). -/
def renderArgs : List Char → List Nat → Option (List Char)
  | [], args => if args.isEmpty then some [] else none
  | c :: rest, args =>
    if c = '%' then
      match rest with
      | [] => none
      | d :: rest2 =>
        if d = 'i' then
          match args with
          | [] => none
          | a :: args2 => (renderArgs rest2 args2).map (fun t => (Nat.repr a).data ++ t)
        else if d = '%' then (renderArgs rest2 args).map (fun t => '%' :: t)
        else none
    else (renderArgs rest args).map (fun t => c :: t)

/-- Result of `url_normalize`: a schema string, or the Python `False`
returned when any step of normalization raises. -/
inductive Schema where
  | str (s : String)
  | invalid
deriving DecidableEq, Repr

/-- Python `schema % (face, zoom, row, col)`; substituting into the
`False` returned for an invalid URL raises (`none`), as does any
formatting error. -/
def Schema.subst : Schema → Nat → Nat → Nat → Nat → Option String
  | .invalid, _, _, _, _ => none
  | .str s, face, zoom, row, col =>
    (renderArgs s.data [face, zoom, row, col]).map (fun cs => ⟨cs⟩)

/-- The probe oracle induced by a fetch oracle and a schema. -/
def probeOf (fetch : String → FetchOutcome) (schema : Schema) : Probe :=
  fun face zoom row col => (Schema.subst schema face zoom row col).map fetch

/-- Rewrite the last three path segments as `url_normalize` does:
`parts[-1] = "%i_%i.jpg"`, `parts[-2] = "%i"`,
`parts[-3] = parts[-3].rstrip("0123456789") + "%i"`; with fewer than three
segments the negative indexing raises (`none`). -/
def rewriteParts (parts : List (List Char)) : Option (List (List Char)) :=
  match parts.reverse with
  | _ :: _ :: p3 :: rest =>
    some (rest.reverse ++
      [rstripDigitsChars p3 ++ ['%', 'i'], ['%', 'i'], "%i_%i.jpg".data])
  | _ => none

/-- Embedding of `KRPanoConverter.url_normalize`: verification fetch of the
URL itself (any non-200 outcome raises), split on `/`, require an
underscore in the last segment, rewrite the last three segments into
placeholders; every raising path returns `Schema.invalid` (Python `False`). -/
def url_normalize (fetch : String → FetchOutcome) (url : String) : Schema :=
  match fetch url with
  | .found _ =>
    let parts := splitSlash url.data
    if '_' ∈ parts.getLastD [] then
      match rewriteParts parts with
      | some ps => .str ⟨joinSlash ps⟩
      | none => .invalid
    else .invalid
  | _ => .invalid

/-! Zoom probing (`KRPanoConverter.get_max_zoom`), instrumented with the
trace of attempted probe coordinates. -/

/-- One step of the `while True` zoom loop starting at level `l`, with
fuel bounding the number of iterations (`none` = fuel exhausted before the
loop returned). -/
def get_max_zoom_aux (p : Probe) : Nat → Nat → Option (Nat × List Coord)
  | 0, _ => none
  | fuel + 1, l =>
    if probeOk (p 0 (l + 1) 0 0) then
      match get_max_zoom_aux p fuel (l + 1) with
      | none => none
      | some (k, tr) => some (k, ⟨0, l + 1, 0, 0⟩ :: tr)
    else some (l, [⟨0, l + 1, 0, 0⟩])

/-- Embedding of `KRPanoConverter.get_max_zoom` (starts at `l = 0`). -/
def get_max_zoom (p : Probe) (fuel : Nat) : Option (Nat × List Coord) :=
  get_max_zoom_aux p fuel 0

/-! Tiled grid download (`KRPanoConverter.export`), instrumented with the
trace of attempted probe coordinates. -/

/-- The inner `while True` column loop of `export` for row `y`, starting at
column `x`: each successful fetch appends a tile record and advances `x`;
the first failure breaks.  Returns the row contents together with the
probe coordinates attempted for this row. -/
def export_row (p : Probe) (face zoom y : Nat) : Nat → Nat → Option (List File × List Coord)
  | 0, _ => none
  | fuel + 1, x =>
    match p face zoom y x with
    | some (.found content) =>
      match export_row p face zoom y fuel (x + 1) with
      | none => none
      | some (files, tr) =>
        some (mkFile face zoom y x content :: files, ⟨face, zoom, y, x⟩ :: tr)
    | _ => some ([], [⟨face, zoom, y, x⟩])

/-- The outer `while True` row loop of `export` for one face, starting at
row `y`: a row whose fetches produced nothing (`if not r_array: break`)
terminates the face; otherwise the row is appended and `y` advances. -/
def export_face (p : Probe) (face zoom : Nat) :
    Nat → Nat → Nat → Option (List (List File) × List Coord)
  | 0, _, _ => none
  | rfuel + 1, cfuel, y =>
    match export_row p face zoom y cfuel 0 with
    | none => none
    | some ([], tr) => some ([], tr)
    | some (r, tr) =>
      match export_face p face zoom rfuel cfuel (y + 1) with
      | none => none
      | some (rows, tr2) => some (r :: rows, tr ++ tr2)

/-- The `for tile in range(6)` loop of `export` over the given face
indices, keeping each face's grid paired with its probe trace. -/
def export_faces (p : Probe) (zoom rfuel cfuel : Nat) :
    List Nat → Option (List (List (List File) × List Coord))
  | [] => some []
  | f :: fs =>
    match export_face p f zoom rfuel cfuel 0, export_faces p zoom rfuel cfuel fs with
    | some gt, some rest => some (gt :: rest)
    | _, _ => none

/-- Embedding of `KRPanoConverter.export`: probe the maximum zoom, then
download the grid of each of the six faces at that zoom.  The result keeps
the discovered zoom with its probe trace, and one `(grid, trace)` pair per
face; the list of grids alone is the Python return value. -/
def exportTiles (p : Probe) (zfuel rfuel cfuel : Nat) :
    Option ((Nat × List Coord) × List (List (List File) × List Coord)) :=
  match get_max_zoom p zfuel with
  | none => none
  | some (mz, ztr) =>
    match export_faces p mz rfuel cfuel (List.range 6) with
    | none => none
    | some results => some ((mz, ztr), results)

/-- Embedding of `KRPanoConverter.export_full`: normalize the URL (without
checking for the `False` failure value), run `export` on the result, and
hand the grids to the external `multistitch`.  The embedding returns the
argument of that single `multistitch` call together with the number of
downstream HTTP fetches actually issued (zoom probes and tile fetches). -/
def export_full (fetch : String → FetchOutcome) (url : String) (zfuel rfuel cfuel : Nat) :
    Option (List (List (List File)) × Nat) :=
  let schema := url_normalize fetch url
  match exportTiles (probeOf fetch schema) zfuel rfuel cfuel with
  | none => none
  | some ((_, ztr), results) =>
    some (results.map Prod.fst,
      issuedCount (probeOf fetch schema) (ztr ++ (results.map Prod.snd).flatten))

/-! Simple six-face download (`KRPanoConverter.export_simple`). -/

/-- Python `url[:-5] + i + url[-4:]`: the sibling URL for face letter `i`. -/
def deriveUrl (url : String) (i : Char) : String :=
  ⟨url.data.take (url.length - 5) ++ [i] ++ url.data.drop (url.length - 4)⟩

/-- The `for i in tiles` loop of `export_simple`: each face letter's
derived URL is fetched; any non-200 outcome makes the `assert` (or the
fetch itself) raise, propagating out of the loop (`none`). -/
def export_simple_go (fetch : String → FetchOutcome) (url : String) :
    List Char → Option (List File)
  | [] => some []
  | i :: rest =>
    match fetch (deriveUrl url i) with
    | .found content =>
      match export_simple_go fetch url rest with
      | none => none
      | some files => some (⟨none, content⟩ :: files)
    | _ => none

/-- Embedding of `KRPanoConverter.export_simple` with its `tiles`
parameter (default `"frblud"` at the call sites that omit it). -/
def export_simple (fetch : String → FetchOutcome) (url : String) (tiles : String) :
    Option (List File) :=
  export_simple_go fetch url tiles.data

/-! URL classification (`KRPanoDownloader.test_url`).  The three regular
expressions of `REGEX_FULL` and `REGEX_SIMPLE` are embedded as direct
matchers; `\d` is modelled as an ASCII decimal digit. -/

/-- Match `\d+` greedily at the head (the regexes never need backtracking
out of `\d+`, as the following literal is never a digit). -/
def takeDigits1 : List Char → Option (List Char)
  | [] => none
  | c :: rest => if c.isDigit then some (rest.dropWhile Char.isDigit) else none

/-- Match one literal character at the head. -/
def matchLit (c : Char) : List Char → Option (List Char)
  | [] => none
  | d :: rest => if d = c then some rest else none

/-- Match one character of a character class at the head. -/
def matchClass (cls : List Char) : List Char → Option (List Char)
  | [] => none
  | d :: rest => if d ∈ cls then some rest else none

/-- Match the regex metacharacter `.` (any character except newline). -/
def matchDot : List Char → Option (List Char)
  | [] => none
  | d :: rest => if d = '\n' then none else some rest

/-- `re.search`: does the pattern match starting at some position? -/
def anySuffix (pat : List Char → Bool) : List Char → Bool
  | [] => pat []
  | c :: rest => pat (c :: rest) || anySuffix pat rest

/-- The pattern `\d+/\d+/\d+_\d+\.jpg` at the head of a character list. -/
def matchFullAt (cs : List Char) : Bool :=
  (takeDigits1 cs >>= matchLit '/' >>= takeDigits1 >>= matchLit '/' >>=
    takeDigits1 >>= matchLit '_' >>= takeDigits1 >>= matchLit '.' >>=
    matchLit 'j' >>= matchLit 'p' >>= matchLit 'g').isSome

/-- `re.search(r"\d+/\d+/\d+_\d+\.jpg", url)` as a Boolean. -/
def searchFull (url : String) : Bool :=
  anySuffix matchFullAt url.data

/-- The pattern `\_[frblud].jpg` at the head of a character list (the `.`
is the unescaped metacharacter). -/
def matchSimple1At (cs : List Char) : Bool :=
  (matchLit '_' cs >>= matchClass ['f', 'r', 'b', 'l', 'u', 'd'] >>= matchDot >>=
    matchLit 'j' >>= matchLit 'p' >>= matchLit 'g').isSome

/-- `re.search(r"\_[frblud].jpg", url)` as a Boolean. -/
def searchSimple1 (url : String) : Bool :=
  anySuffix matchSimple1At url.data

/-- `re.search(r"^\d.jpg", url)` as a Boolean: the `^` anchor restricts
the match to the start of the string. -/
def searchSimple2 (url : String) : Bool :=
  (matchClass "0123456789".data url.data >>= matchDot >>=
    matchLit 'j' >>= matchLit 'p' >>= matchLit 'g').isSome

/-- Modelled from the spec: the certainty constants of pix360core's
`DownloaderModule` (the class itself is not part of this repository).  The
spec describes them as the ordered enumeration UNSUPPORTED < POSSIBLE <
PROBABLE. -/
def CERTAINTY_UNSUPPORTED : Nat := 0

/-- Modelled from the spec: see `CERTAINTY_UNSUPPORTED`. -/
def CERTAINTY_POSSIBLE : Nat := 1

/-- Modelled from the spec: see `CERTAINTY_UNSUPPORTED`. -/
def CERTAINTY_PROBABLE : Nat := 2

/-- `KRPanoDownloader.REGEX_FULL`: matcher, certainty, and the `kwargs`
side channel (`none` models the empty kwargs dict). -/
def REGEX_FULL : List ((String → Bool) × Nat × Option String) :=
  [(searchFull, CERTAINTY_PROBABLE, none)]

/-- `KRPanoDownloader.REGEX_SIMPLE`: the second entry carries the
`{"tiles": "012345"}` keyword argument. -/
def REGEX_SIMPLE : List ((String → Bool) × Nat × Option String) :=
  [(searchSimple1, CERTAINTY_PROBABLE, none),
   (searchSimple2, CERTAINTY_POSSIBLE, some "012345")]

/-- One `for regex, certainty, kwargs in ...` loop returning on the first
matching rule. -/
def findRule (rules : List ((String → Bool) × Nat × Option String)) (url : String) :
    Option ((String → Bool) × Nat × Option String) :=
  match rules with
  | [] => none
  | r :: rest => if r.1 url then some r else findRule rest url

/-- Embedding of `KRPanoDownloader.test_url`: try `REGEX_FULL`, then
`REGEX_SIMPLE`, returning the first matching rule's certainty, else
`CERTAINTY_UNSUPPORTED`. -/
def test_url (url : String) : Nat :=
  match findRule REGEX_FULL url with
  | some r => r.2.1
  | none =>
    match findRule REGEX_SIMPLE url with
    | some r => r.2.1
    | none => CERTAINTY_UNSUPPORTED

/-! The acquisition coordinator (`make_tiles` / `to_equirectangular`). -/

/-- The tile set produced by `make_tiles`: grids from `export_full` or the
flat six-tile list from `export_simple`. -/
inductive TileSet where
  | full (grids : List (List (List File)))
  | simple (tiles : List File)
deriving DecidableEq, Repr

/-- Exceptions `make_tiles` lets escape: a failed fetch/assert in
`export_simple`, or the `ValueError` raised when no pattern matches. -/
inductive MakeTilesError where
  | fetchFailed
  | valueError
deriving DecidableEq, Repr

/-- Embedding of `KRPanoConverter.make_tiles`: dispatch on the same two
regex lists, `REGEX_FULL` routing to `export_full` and `REGEX_SIMPLE` to
`export_simple` with the rule's `tiles` keyword argument (default
`"frblud"`); no match raises `ValueError`. -/
def make_tiles (fetch : String → FetchOutcome) (url : String) (zfuel rfuel cfuel : Nat) :
    Option (Except MakeTilesError TileSet) :=
  match findRule REGEX_FULL url with
  | some _ =>
    match export_full fetch url zfuel rfuel cfuel with
    | none => none
    | some (grids, _) => some (.ok (.full grids))
  | none =>
    match findRule REGEX_SIMPLE url with
    | some r =>
      match export_simple fetch url (r.2.2.getD "frblud") with
      | none => some (.error .fetchFailed)
      | some files => some (.ok (.simple files))
    | none => some (.error .valueError)

/-- The caller-supplied conversion record: a URL and optional properties
(the Python dict modelled as an association list). -/
structure Conversion where
  url : String
  properties : Option (List (String × (Int × Int × Int)))

/-- The rotation selection of `to_equirectangular`:
`self.conversion.properties.get("rotation", (0,0,0)) if
self.conversion.properties else (0,0,0)` — note the Python truthiness
check makes an empty dict fall back to the default as well. -/
def rotationOf (props : Option (List (String × (Int × Int × Int)))) : Int × Int × Int :=
  match props with
  | none => (0, 0, 0)
  | some d =>
    if d.isEmpty then (0, 0, 0)
    else
      match d.find? (fun kv => kv.1 == "rotation") with
      | some kv => kv.2
      | none => (0, 0, 0)

/-- Embedding of `KRPanoConverter.to_equirectangular`: build the tile set,
then make the single `cubemap_to_equirectangular(stitched, rotation)`
call; the embedding returns that call's argument pair. -/
def to_equirectangular (fetch : String → FetchOutcome) (conv : Conversion)
    (zfuel rfuel cfuel : Nat) :
    Option (Except MakeTilesError (TileSet × (Int × Int × Int))) :=
  match make_tiles fetch conv.url zfuel rfuel cfuel with
  | none => none
  | some (.error e) => some (.error e)
  | some (.ok ts) => some (.ok (ts, rotationOf conv.properties))

/-- Collapse every non-success fetch outcome (authoritative non-200,
transient transport error, raising substitution) into an authoritative
non-200: used to state that the probe loops cannot tell these apart. -/
def canonFail (o : Option FetchOutcome) : Option FetchOutcome :=
  match o with
  | some (.found b) => some (.found b)
  | _ => some .non200

/-- A probe oracle with all failures canonicalized. -/
def canonProbe (p : Probe) : Probe :=
  fun face zoom row col => canonFail (p face zoom row col)

/-! Lemmas about the zoom probe. -/

/-- Structure of any terminating zoom-probe run starting at level `l`: the
trace probes exactly the zoom levels `l+1, l+2, ...` in order, always at
`(face, row, col) = (0, 0, 0)`, and is non-empty. -/
lemma get_max_zoom_aux_spec (p : Probe) :
    ∀ fuel l k tr, get_max_zoom_aux p fuel l = some (k, tr) →
      tr.map Coord.zoom = List.range' (l + 1) tr.length ∧
      (∀ c ∈ tr, c.face = 0 ∧ c.row = 0 ∧ c.col = 0) ∧
      tr ≠ [] ∧ tr.headD ⟨1, 1, 1, 1⟩ = ⟨0, l + 1, 0, 0⟩ := by
  intro fuel
  induction fuel with
  | zero => intro l k tr h; simp [get_max_zoom_aux] at h
  | succ fuel ih =>
    intro l k tr h
    rw [get_max_zoom_aux] at h
    by_cases hp : probeOk (p 0 (l + 1) 0 0) = true
    · rw [if_pos hp] at h
      cases hrec : get_max_zoom_aux p fuel (l + 1) with
      | none => rw [hrec] at h; exact absurd h (by simp)
      | some res =>
        obtain ⟨k', tr'⟩ := res
        rw [hrec] at h
        obtain ⟨hk, htr⟩ := Prod.mk.injEq .. ▸ Option.some.injEq .. ▸ h
        obtain ⟨hmap, hall, hne, hhead⟩ := ih (l + 1) k' tr' hrec
        subst htr
        refine ⟨?_, ?_, by simp, by simp⟩
        · simp only [List.map_cons, List.length_cons, List.range'_succ]
          exact congrArg (_ :: ·) hmap
        · intro c hc
          rcases List.mem_cons.mp hc with rfl | hc
          · exact ⟨rfl, rfl, rfl⟩
          · exact hall c hc
    · rw [if_neg hp] at h
      obtain ⟨hk, htr⟩ := Prod.mk.injEq .. ▸ Option.some.injEq .. ▸ h
      subst htr
      exact ⟨by simp [List.range'], by simp, by simp, by simp⟩

/-- A complete run of the zoom loop: if the probes succeed strictly above
`l` up to `k` and fail at `k + 1`, the loop started at `l ≤ k` returns `k`
with the trace of levels `l+1 .. k+1` in increasing order. -/
lemma get_max_zoom_aux_run (p : Probe) (k : Nat)
    (hfail : probeOk (p 0 (k + 1) 0 0) = false) :
    ∀ fuel l, l ≤ k → (∀ m, l < m → m ≤ k → probeOk (p 0 m 0 0) = true) →
      k + 1 - l ≤ fuel →
      get_max_zoom_aux p fuel l =
        some (k, (List.range' (l + 1) (k + 1 - l)).map (fun z => ⟨0, z, 0, 0⟩)) := by
  intro fuel
  induction fuel with
  | zero => intro l hl _ hf; omega
  | succ fuel ih =>
    intro l hl hsucc hf
    rw [get_max_zoom_aux]
    rcases Nat.lt_or_ge l k with hlt | hge
    · rw [if_pos (hsucc (l + 1) (Nat.lt_succ_self l) hlt)]
      rw [ih (l + 1) hlt (fun m hm hm' => hsucc m (Nat.lt_of_succ_lt hm) hm') (by omega)]
      have hn : k + 1 - l = (k + 1 - (l + 1)) + 1 := by omega
      rw [hn, List.range'_succ]
      simp
    · have hlk : l = k := Nat.le_antisymm hl hge
      subst hlk
      rw [if_neg (by simp [hfail])]
      have hn : l + 1 - l = 1 := by omega
      rw [hn]
      simp [List.range']

/-- C2: the zoom probe starts at level 0 and probes `(0, l+1, 0, 0)` for
successive `l`; if levels `1..k` all probe successfully and level `k+1`
fails, it returns `k`, and its probe trace is exactly the levels
`1, 2, ..., k+1` in increasing order — monotone, never decrementing and
never skipping a level. -/
theorem get_max_zoom_probe_sequence (p : Probe) (k fuel : Nat)
    (hsucc : ∀ l, 1 ≤ l → l ≤ k → probeOk (p 0 l 0 0) = true)
    (hfail : probeOk (p 0 (k + 1) 0 0) = false)
    (hfuel : k + 1 ≤ fuel) :
    get_max_zoom p fuel = some (k, (List.range' 1 (k + 1)).map (fun z => ⟨0, z, 0, 0⟩)) := by
  have h := get_max_zoom_aux_run p k hfail fuel 0 (Nat.zero_le k)
    (fun m hm hm' => hsucc m hm hm') (by omega)
  simpa [get_max_zoom] using h

/-- Witness for C2 at a concrete probe: levels 1 and 2 reachable, level 3
absent; the probe returns 2 after probing levels 1, 2, 3 in order. -/
theorem get_max_zoom_probe_sequence_witness :
    get_max_zoom (fun _ z _ _ => some (if z ≤ 2 then .found "b" else .non200)) 5 =
      some (2, (List.range' 1 3).map (fun z => ⟨0, z, 0, 0⟩)) :=
  get_max_zoom_probe_sequence (fun _ z _ _ => some (if z ≤ 2 then .found "b" else .non200))
    2 5 (by decide) (by decide) (by decide)

/-- C10: the zoom probe never probes zoom level 0 (every probed coordinate
has zoom at least 1, face, row and column 0, and the first probe is level
1); if the level-1 probe fails — for whatever reason, including a schema
whose level-0 base tile does not exist or an unreachable host — it returns
the valid result 0 after that single probe, never having verified that any
tile exists at the returned level 0. -/
theorem get_max_zoom_never_level_zero (p : Probe) (fuel k : Nat) (tr : List Coord)
    (h : get_max_zoom p fuel = some (k, tr)) :
    (∀ c ∈ tr, 1 ≤ c.zoom ∧ c.face = 0 ∧ c.row = 0 ∧ c.col = 0) ∧
    tr ≠ [] ∧ tr.headD ⟨1, 1, 1, 1⟩ = ⟨0, 1, 0, 0⟩ ∧
    (probeOk (p 0 1 0 0) = false → k = 0 ∧ tr = [⟨0, 1, 0, 0⟩]) := by
  obtain ⟨hmap, hall, hne, hhead⟩ := get_max_zoom_aux_spec p fuel 0 k tr h
  refine ⟨?_, hne, hhead, ?_⟩
  · intro c hc
    obtain ⟨hf, hr, hcol⟩ := hall c hc
    refine ⟨?_, hf, hr, hcol⟩
    have hz : c.zoom ∈ tr.map Coord.zoom := List.mem_map.mpr ⟨c, hc, rfl⟩
    rw [hmap] at hz
    obtain ⟨i, _, hi⟩ := List.mem_range'.mp hz
    omega
  · intro hfailed
    cases fuel with
    | zero => simp [get_max_zoom, get_max_zoom_aux] at h
    | succ fuel =>
      rw [get_max_zoom, get_max_zoom_aux, if_neg (by simp [hfailed])] at h
      obtain ⟨hk, htr⟩ := Prod.mk.injEq .. ▸ Option.some.injEq .. ▸ h
      exact ⟨hk.symm, htr.symm⟩

/-- Witness for C10 at a concrete probe whose level-1 probe fails while
its level-0 base tile also does not exist: the result is 0 after the
single probe of level 1. -/
theorem get_max_zoom_never_level_zero_witness :
    (∀ c ∈ [(⟨0, 1, 0, 0⟩ : Coord)], 1 ≤ c.zoom ∧ c.face = 0 ∧ c.row = 0 ∧ c.col = 0) ∧
    ([(⟨0, 1, 0, 0⟩ : Coord)] ≠ []) ∧
    ([(⟨0, 1, 0, 0⟩ : Coord)].headD ⟨1, 1, 1, 1⟩ = ⟨0, 1, 0, 0⟩) ∧
    (probeOk ((fun _ _ _ _ => some FetchOutcome.non200 : Probe) 0 1 0 0) = false →
      0 = 0 ∧ [(⟨0, 1, 0, 0⟩ : Coord)] = [⟨0, 1, 0, 0⟩]) :=
  get_max_zoom_never_level_zero (fun _ _ _ _ => some FetchOutcome.non200) 4 0
    [⟨0, 1, 0, 0⟩] (by decide)

/-! Lemmas about failure-kind handling in the probe loops. -/

/-- Canonicalizing failures does not change success as seen by the
`try` blocks. -/
lemma probeOk_canonFail (o : Option FetchOutcome) : probeOk (canonFail o) = probeOk o := by
  rcases o with _ | o
  · rfl
  · cases o <;> rfl

/-- The zoom loop cannot distinguish failure kinds: canonicalizing every
non-success outcome to an authoritative non-200 leaves the run unchanged. -/
lemma get_max_zoom_aux_canon (p : Probe) :
    ∀ fuel l, get_max_zoom_aux (canonProbe p) fuel l = get_max_zoom_aux p fuel l := by
  intro fuel
  induction fuel with
  | zero => intro l; rfl
  | succ fuel ih =>
    intro l
    rw [get_max_zoom_aux, get_max_zoom_aux, ih (l + 1)]
    rw [show probeOk (canonProbe p 0 (l + 1) 0 0) = probeOk (p 0 (l + 1) 0 0) from
      probeOk_canonFail _]

/-- The column loop cannot distinguish failure kinds. -/
lemma export_row_canon (p : Probe) (face zoom y : Nat) :
    ∀ cfuel x, export_row (canonProbe p) face zoom y cfuel x = export_row p face zoom y cfuel x := by
  intro cfuel
  induction cfuel with
  | zero => intro x; rfl
  | succ cfuel ih =>
    intro x
    rw [export_row, export_row, ih (x + 1)]
    rcases h : p face zoom y x with _ | o
    · rw [show canonProbe p face zoom y x = some .non200 from by simp [canonProbe, canonFail, h]]
    · cases o <;>
        simp only [canonProbe, canonFail, h]

/-- The row loop cannot distinguish failure kinds. -/
lemma export_face_canon (p : Probe) (face zoom : Nat) :
    ∀ rfuel cfuel y,
      export_face (canonProbe p) face zoom rfuel cfuel y = export_face p face zoom rfuel cfuel y := by
  intro rfuel
  induction rfuel with
  | zero => intro cfuel y; rfl
  | succ rfuel ih =>
    intro cfuel y
    rw [export_face, export_face, export_row_canon, ih cfuel (y + 1)]

/-- The face loop cannot distinguish failure kinds. -/
lemma export_faces_canon (p : Probe) (zoom rfuel cfuel : Nat) :
    ∀ fs, export_faces (canonProbe p) zoom rfuel cfuel fs = export_faces p zoom rfuel cfuel fs := by
  intro fs
  induction fs with
  | nil => rfl
  | cons f fs ih => rw [export_faces, export_faces, export_face_canon, ih]

/-- C6 amended: the probe loops draw no distinction between failure kinds
and perform no retries.  Canonicalizing every non-success fetch outcome
(transient transport fault, authoritative non-200, raising substitution)
into an authoritative non-200 changes neither the zoom probe nor the grid
download, and the zoom probe attempts each coordinate at most once — a
transient failure therefore terminates a probe loop immediately, exactly
like an authoritative absence, with no retry budget. -/
theorem probe_failure_kinds_conflated (p : Probe) (fuel zfuel rfuel cfuel : Nat) :
    get_max_zoom (canonProbe p) fuel = get_max_zoom p fuel ∧
    exportTiles (canonProbe p) zfuel rfuel cfuel = exportTiles p zfuel rfuel cfuel ∧
    (∀ k tr, get_max_zoom p fuel = some (k, tr) → tr.Nodup) := by
  refine ⟨get_max_zoom_aux_canon p fuel 0, ?_, ?_⟩
  · rw [exportTiles, exportTiles, show get_max_zoom (canonProbe p) zfuel = get_max_zoom p zfuel
      from get_max_zoom_aux_canon p zfuel 0]
    cases get_max_zoom p zfuel with
    | none => rfl
    | some res => obtain ⟨mz, ztr⟩ := res; simp only [export_faces_canon]
  · intro k tr h
    obtain ⟨hmap, -, -, -⟩ := get_max_zoom_aux_spec p fuel 0 k tr h
    exact List.Nodup.of_map Coord.zoom (hmap ▸ List.nodup_range' 1 tr.length)

/-- Witness for C6 amended at a concrete probe whose level-1 outcome is a
transient transport error. -/
theorem probe_failure_kinds_conflated_witness :
    get_max_zoom (canonProbe (fun _ z _ _ => if z = 1 then some .transient else some (.found "b"))) 6 =
      get_max_zoom (fun _ z _ _ => if z = 1 then some .transient else some (.found "b")) 6 ∧
    exportTiles (canonProbe (fun _ z _ _ => if z = 1 then some .transient else some (.found "b"))) 3 3 3 =
      exportTiles (fun _ z _ _ => if z = 1 then some .transient else some (.found "b")) 3 3 3 ∧
    (∀ k tr,
      get_max_zoom (fun _ z _ _ => if z = 1 then some .transient else some (.found "b")) 6 = some (k, tr) →
      tr.Nodup) :=
  probe_failure_kinds_conflated (fun _ z _ _ => if z = 1 then some .transient else some (.found "b")) 6 3 3 3

/-- C6 counterexample: at a provider whose level-1 probe suffers a
transient transport error (all deeper tiles being present), the zoom loop
terminates at once and returns 0 after that single probe — no retry is
attempted and the transient failure is treated exactly like an
authoritative not-found, contradicting the claimed retry-then-surface
behavior for transient errors. -/
theorem transient_terminates_probe_counterexample :
    get_max_zoom (fun _ z _ _ => if z = 1 then some .transient else some (.found "b")) 10 =
      some (0, [⟨0, 1, 0, 0⟩]) ∧
    get_max_zoom (fun _ z _ _ => if z = 1 then some .non200 else some (.found "b")) 10 =
      some (0, [⟨0, 1, 0, 0⟩]) := by
  exact ⟨rfl, rfl⟩

/-! Claims about classification, six-face derivation and the stitcher call. -/

/-- C3: classification is a deterministic function applying the pattern
families in fixed priority order — the full-pyramid pattern first
(PROBABLE), then the trailing face-letter pattern (PROBABLE), then the
leading-digit filename pattern (POSSIBLE), else UNSUPPORTED; in
particular, a URL matching both a full-pyramid and a simple pattern always
gets the full-pyramid classification. -/
theorem test_url_priority (url : String) :
    test_url url =
      (if searchFull url then CERTAINTY_PROBABLE
       else if searchSimple1 url then CERTAINTY_PROBABLE
       else if searchSimple2 url then CERTAINTY_POSSIBLE
       else CERTAINTY_UNSUPPORTED) := by
  rw [test_url, REGEX_FULL, REGEX_SIMPLE, findRule, findRule]
  by_cases h1 : searchFull url
  · simp [h1, findRule]
  · by_cases h2 : searchSimple1 url
    · simp [h1, h2, findRule]
    · by_cases h3 : searchSimple2 url <;> simp [h1, h2, h3, findRule]

/-- Python list assignment for the single replaced character: the derived
URL is the seed with the character five positions before the end set to
the face letter and nothing else changed. -/
lemma deriveUrl_eq_set (url : String) (h5 : 5 ≤ url.length) (i : Char) :
    deriveUrl url i = ⟨url.data.set (url.length - 5) i⟩ := by
  rw [deriveUrl]
  congr 1
  have hlen : url.length = url.data.length := rfl
  have hk : url.length - 5 < url.data.length := by omega
  rw [List.set_eq_take_append_cons_drop, if_pos hk]
  have h4 : url.length - 4 = (url.length - 5) + 1 := by omega
  rw [h4, List.append_assoc]
  rfl

/-- The `for i in tiles` loop under an all-successful fetch oracle
produces one tile per letter, in letter order. -/
lemma export_simple_go_all_found (fetch : String → FetchOutcome) (url : String)
    (content : Char → String) :
    ∀ tiles : List Char, (∀ i ∈ tiles, fetch (deriveUrl url i) = .found (content i)) →
      export_simple_go fetch url tiles = some (tiles.map (fun i => ⟨none, content i⟩)) := by
  intro tiles
  induction tiles with
  | nil => intro _; rfl
  | cons i rest ih =>
    intro hok
    rw [export_simple_go, hok i (List.mem_cons_self i rest),
      ih (fun j hj => hok j (List.mem_cons_of_mem i hj))]
    rfl

/-- C7: for a seed URL of length at least 5, each face letter's derived
sibling URL is the seed with only the character five positions before the
end (immediately before the 4-character extension) replaced by that
letter, and when the six fetches succeed `export_simple` records exactly
one tile per letter of `"frblud"`, in that order. -/
theorem export_simple_face_letter_derivation (url : String) (fetch : String → FetchOutcome)
    (content : Char → String) (h5 : 5 ≤ url.length)
    (hok : ∀ i ∈ "frblud".data, fetch (deriveUrl url i) = .found (content i)) :
    (∀ i : Char, deriveUrl url i = ⟨url.data.set (url.length - 5) i⟩) ∧
    export_simple fetch url "frblud" =
      some ("frblud".data.map (fun i => ⟨none, content i⟩)) :=
  ⟨fun i => deriveUrl_eq_set url h5 i,
   export_simple_go_all_found fetch url content "frblud".data hok⟩

/-- Witness for C7 at the seed URL `pano_f.jpg` with a fetch oracle that
returns each derived URL as its own body. -/
theorem export_simple_face_letter_derivation_witness :
    (∀ i : Char, deriveUrl "pano_f.jpg" i = ⟨"pano_f.jpg".data.set ("pano_f.jpg".length - 5) i⟩) ∧
    export_simple (fun u => .found u) "pano_f.jpg" "frblud" =
      some ("frblud".data.map (fun i => ⟨none, deriveUrl "pano_f.jpg" i⟩)) :=
  export_simple_face_letter_derivation "pano_f.jpg" (fun u => .found u)
    (fun i => deriveUrl "pano_f.jpg" i) (by decide) (fun i _ => rfl)

/-- C8: per successful acquisition the engine makes exactly one call to
the external `cubemap_to_equirectangular`, and the rotation passed to it
is the caller-supplied `rotation` entry of the conversion's properties,
unmodified, or `(0,0,0)` when the properties are absent (or, by Python
truthiness, empty) or carry no rotation entry. -/
theorem to_equirectangular_single_stitch_call (fetch : String → FetchOutcome)
    (conv : Conversion) (zfuel rfuel cfuel : Nat) (ts : TileSet)
    (h : make_tiles fetch conv.url zfuel rfuel cfuel = some (.ok ts)) :
    to_equirectangular fetch conv zfuel rfuel cfuel =
      some (.ok (ts, rotationOf conv.properties)) ∧
    (conv.properties = none → rotationOf conv.properties = (0, 0, 0)) ∧
    (∀ d, conv.properties = some d → d.find? (fun kv => kv.1 == "rotation") = none →
      rotationOf conv.properties = (0, 0, 0)) ∧
    (∀ d kv, conv.properties = some d → d.find? (fun kv => kv.1 == "rotation") = some kv →
      rotationOf conv.properties = kv.2) := by
  refine ⟨by rw [to_equirectangular, h], ?_, ?_, ?_⟩
  · intro hn; rw [hn]; rfl
  · intro d hd hfind
    rw [hd, rotationOf]
    by_cases he : d.isEmpty
    · rw [if_pos he]
    · rw [if_neg he, hfind]
  · intro d kv hd hfind
    rw [hd, rotationOf]
    have hne : d.isEmpty = false := by
      cases d with
      | nil => simp [List.find?] at hfind
      | cons a l => rfl
    rw [hne, hfind]
    rfl

/-- Witness for C8 at a six-face acquisition whose conversion carries an
explicit rotation property. -/
theorem to_equirectangular_single_stitch_call_witness :
    to_equirectangular (fun _ => .found "b")
        ⟨"pano_f.jpg", some [("rotation", (1, 2, 3))]⟩ 3 3 3 =
      some (.ok (.simple (List.replicate 6 ⟨none, "b"⟩),
        rotationOf (some [("rotation", (1, 2, 3))]))) ∧
    ((some [("rotation", ((1 : Int), (2 : Int), (3 : Int)))] :
        Option (List (String × (Int × Int × Int)))) = none →
      rotationOf (some [("rotation", (1, 2, 3))]) = (0, 0, 0)) ∧
    (∀ d, (some [("rotation", ((1 : Int), (2 : Int), (3 : Int)))] :
        Option (List (String × (Int × Int × Int)))) = some d →
      d.find? (fun kv => kv.1 == "rotation") = none →
      rotationOf (some [("rotation", (1, 2, 3))]) = (0, 0, 0)) ∧
    (∀ d kv, (some [("rotation", ((1 : Int), (2 : Int), (3 : Int)))] :
        Option (List (String × (Int × Int × Int)))) = some d →
      d.find? (fun kv => kv.1 == "rotation") = some kv →
      rotationOf (some [("rotation", (1, 2, 3))]) = kv.2) :=
  to_equirectangular_single_stitch_call (fun _ => .found "b")
    ⟨"pano_f.jpg", some [("rotation", (1, 2, 3))]⟩ 3 3 3
    (.simple (List.replicate 6 ⟨none, "b"⟩)) rfl

/-! Lemmas about the structure of the grid download. -/

/-- The face loop yields one result per requested face. -/
lemma export_faces_length (p : Probe) (zoom rfuel cfuel : Nat) :
    ∀ fs res, export_faces p zoom rfuel cfuel fs = some res → res.length = fs.length := by
  intro fs
  induction fs with
  | nil => intro res h; obtain rfl := Option.some.injEq .. ▸ h; rfl
  | cons f fs ih =>
    intro res h
    rw [export_faces] at h
    cases h1 : export_face p f zoom rfuel cfuel 0 with
    | none => rw [h1] at h; exact absurd h (by simp)
    | some gt =>
      cases h2 : export_faces p zoom rfuel cfuel fs with
      | none => rw [h1, h2] at h; exact absurd h (by simp)
      | some rest =>
        rw [h1, h2] at h
        obtain rfl := Option.some.injEq .. ▸ h
        simp [ih rest h2]

/-- Each face's entry in the face-loop result is that face's run. -/
lemma export_faces_getD (p : Probe) (zoom rfuel cfuel : Nat) :
    ∀ fs res i, export_faces p zoom rfuel cfuel fs = some res → i < fs.length →
      export_face p (fs.getD i 0) zoom rfuel cfuel 0 = some (res.getD i ([], [])) := by
  intro fs
  induction fs with
  | nil => intro res i _ hi; simp at hi
  | cons f fs ih =>
    intro res i h hi
    rw [export_faces] at h
    cases h1 : export_face p f zoom rfuel cfuel 0 with
    | none => rw [h1] at h; exact absurd h (by simp)
    | some gt =>
      cases h2 : export_faces p zoom rfuel cfuel fs with
      | none => rw [h1, h2] at h; exact absurd h (by simp)
      | some rest =>
        rw [h1, h2] at h
        obtain rfl := Option.some.injEq .. ▸ h
        cases i with
        | zero => simpa using h1
        | succ i => simpa using ih rest i h2 (by simpa using hi)

/-- Every row kept by the row loop is non-empty: an empty row terminates
the face before being appended. -/
lemma export_face_rows_nonempty (p : Probe) (face zoom : Nat) :
    ∀ rfuel cfuel y rows tr, export_face p face zoom rfuel cfuel y = some (rows, tr) →
      ∀ r ∈ rows, r ≠ [] := by
  intro rfuel
  induction rfuel with
  | zero => intro cfuel y rows tr h; simp [export_face] at h
  | succ rfuel ih =>
    intro cfuel y rows tr h
    rw [export_face] at h
    cases h1 : export_row p face zoom y cfuel 0 with
    | none => rw [h1] at h; exact absurd h (by simp)
    | some rt =>
      obtain ⟨r, tr1⟩ := rt
      rw [h1] at h
      cases r with
      | nil =>
        obtain ⟨hrows, -⟩ := Prod.mk.injEq .. ▸ Option.some.injEq .. ▸ h
        subst hrows
        intro r hr
        simp at hr
      | cons a r0 =>
        cases h2 : export_face p face zoom rfuel cfuel (y + 1) with
        | none => rw [h2] at h; exact absurd h (by simp)
        | some rt2 =>
          obtain ⟨rows2, tr2⟩ := rt2
          rw [h2] at h
          obtain ⟨hrows, -⟩ := Prod.mk.injEq .. ▸ Option.some.injEq .. ▸ h
          subst hrows
          intro r hr
          rcases List.mem_cons.mp hr with rfl | hr
          · simp
          · exact ih cfuel (y + 1) rows2 tr2 h2 r hr

/-- A face whose very first probe (row 0, column 0) fails contributes an
empty grid rather than an error. -/
lemma export_face_first_probe_fail (p : Probe) (face zoom : Nat) :
    ∀ rfuel cfuel rows tr, export_face p face zoom rfuel cfuel 0 = some (rows, tr) →
      probeOk (p face zoom 0 0) = false → rows = [] := by
  intro rfuel cfuel rows tr h hfail
  cases rfuel with
  | zero => simp [export_face] at h
  | succ rfuel =>
    cases cfuel with
    | zero => simp [export_face, export_row] at h
    | succ cfuel =>
      rw [export_face, export_row] at h
      rcases hp : p face zoom 0 0 with _ | o
      · rw [hp] at h
        obtain ⟨hrows, -⟩ := Prod.mk.injEq .. ▸ Option.some.injEq .. ▸ h
        exact hrows.symm
      · cases o with
        | found b => rw [hp] at hfail; simp [probeOk] at hfail
        | non200 =>
          rw [hp] at h
          obtain ⟨hrows, -⟩ := Prod.mk.injEq .. ▸ Option.some.injEq .. ▸ h
          exact hrows.symm
        | transient =>
          rw [hp] at h
          obtain ⟨hrows, -⟩ := Prod.mk.injEq .. ▸ Option.some.injEq .. ▸ h
          exact hrows.symm

/-- When every face runs to the same known result, the face loop maps over
the face list. -/
lemma export_faces_map (p : Probe) (zoom rfuel cfuel : Nat)
    (g : Nat → List (List File) × List Coord) :
    ∀ fs, (∀ f ∈ fs, export_face p f zoom rfuel cfuel 0 = some (g f)) →
      export_faces p zoom rfuel cfuel fs = some (fs.map g) := by
  intro fs
  induction fs with
  | nil => intro _; rfl
  | cons f fs ih =>
    intro hall
    rw [export_faces, hall f (List.mem_cons_self f fs),
      ih (fun f' hf' => hall f' (List.mem_cons_of_mem f hf'))]
    rfl

/-- C9: the grid download is total and always six-faced — whenever it
terminates it returns exactly 6 face grids and never an error, every row
kept in any face grid is non-empty, and a face whose very first probe
fails contributes an empty grid instead of aborting the acquisition;
in particular for a probe oracle that never succeeds anywhere (including
the raising substitution of an invalid schema) it returns six empty
grids. -/
theorem export_always_six_grids :
    (∀ (p : Probe) (zfuel rfuel cfuel mz : Nat) (ztr : List Coord)
        (results : List (List (List File) × List Coord)),
      exportTiles p zfuel rfuel cfuel = some ((mz, ztr), results) →
        results.length = 6 ∧
        (∀ gt ∈ results, ∀ r ∈ gt.1, r ≠ []) ∧
        (∀ i, i < 6 → probeOk (p i mz 0 0) = false → (results.getD i ([], [])).1 = [])) ∧
    (∀ p : Probe, (∀ f z y x, probeOk (p f z y x) = false) →
      ∀ zfuel rfuel cfuel, 1 ≤ zfuel → 1 ≤ rfuel → 1 ≤ cfuel →
        exportTiles p zfuel rfuel cfuel =
          some ((0, [⟨0, 1, 0, 0⟩]),
            (List.range 6).map (fun f => ([], [⟨f, 0, 0, 0⟩])))) := by
  constructor
  · intro p zfuel rfuel cfuel mz ztr results h
    rw [exportTiles] at h
    cases h1 : get_max_zoom p zfuel with
    | none => rw [h1] at h; exact absurd h (by simp)
    | some res =>
      obtain ⟨mz', ztr'⟩ := res
      rw [h1] at h
      dsimp only at h
      cases h2 : export_faces p mz' rfuel cfuel (List.range 6) with
      | none => rw [h2] at h; exact absurd h (by simp)
      | some results' =>
        rw [h2] at h
        obtain ⟨hhead, hres⟩ := Prod.mk.injEq .. ▸ Option.some.injEq .. ▸ h
        obtain ⟨hmz, -⟩ := Prod.mk.injEq .. ▸ hhead
        subst hres hmz
        refine ⟨by simpa using export_faces_length p mz' rfuel cfuel _ results' h2, ?_, ?_⟩
        · intro gt hgt r hr
          obtain ⟨i, hi, hget⟩ := List.mem_iff_getElem.mp hgt
          have hlen : results'.length = 6 := by
            simpa using export_faces_length p mz' rfuel cfuel _ results' h2
          have hd := export_faces_getD p mz' rfuel cfuel (List.range 6) results' i h2
            (by simpa using hlen ▸ hi)
          have hgd : results'.getD i ([], []) = gt := by
            rw [List.getD_eq_getElem?_getD, List.getElem?_eq_getElem hi, hget]
            rfl
          rw [hgd] at hd
          exact export_face_rows_nonempty p ((List.range 6).getD i 0) mz' rfuel cfuel 0
            gt.1 gt.2 (by simpa using hd) r hr
        · intro i hi hfail
          have hd := export_faces_getD p mz' rfuel cfuel (List.range 6) results' i h2
            (by simpa using hi)
          rw [List.getD_eq_getElem?_getD, List.getElem?_range hi] at hd
          exact export_face_first_probe_fail p i mz' rfuel cfuel _ _ (by simpa using hd) hfail
  · intro p hfail zfuel rfuel cfuel hz hr hc
    obtain ⟨zfuel, rfl⟩ := Nat.exists_eq_add_of_le hz
    obtain ⟨rfuel, rfl⟩ := Nat.exists_eq_add_of_le hr
    obtain ⟨cfuel, rfl⟩ := Nat.exists_eq_add_of_le hc
    have hgz : get_max_zoom p (1 + zfuel) = some (0, [⟨0, 1, 0, 0⟩]) := by
      rw [Nat.add_comm, get_max_zoom, get_max_zoom_aux, if_neg (by simp [hfail])]
    have hface : ∀ f ∈ List.range 6,
        export_face p f 0 (1 + rfuel) (1 + cfuel) 0 = some (([], [⟨f, 0, 0, 0⟩])) := by
      intro f _
      rw [Nat.add_comm 1 rfuel, Nat.add_comm 1 cfuel, export_face, export_row]
      rcases hp : p f 0 0 0 with _ | o
      · rfl
      · cases o with
        | found b => have := hfail f 0 0 0; rw [hp] at this; simp [probeOk] at this
        | non200 => rfl
        | transient => rfl
    rw [exportTiles, hgz]
    dsimp only
    rw [export_faces_map p 0 (1 + rfuel) (1 + cfuel)
      (fun f => ([], [⟨f, 0, 0, 0⟩])) (List.range 6) hface]

/-- Witness for C9: both parts instantiated at the everywhere-failing
probe oracle induced by an invalid schema. -/
theorem export_always_six_grids_witness :
    (exportTiles (probeOf (fun _ => .non200) Schema.invalid) 2 2 2 =
        some ((0, [⟨0, 1, 0, 0⟩]), (List.range 6).map (fun f => ([], [⟨f, 0, 0, 0⟩]))) →
      ((List.range 6).map (fun f => (([] : List (List File)), [(⟨f, 0, 0, 0⟩ : Coord)]))).length = 6) ∧
    exportTiles (probeOf (fun _ => .non200) Schema.invalid) 2 2 2 =
      some ((0, [⟨0, 1, 0, 0⟩]), (List.range 6).map (fun f => ([], [⟨f, 0, 0, 0⟩]))) := by
  have h2 := export_always_six_grids.2 (probeOf (fun _ => .non200) Schema.invalid)
    (fun f z y x => rfl) 2 2 2 (by decide) (by decide) (by decide)
  refine ⟨?_, h2⟩
  intro hx
  exact (export_always_six_grids.1 (probeOf (fun _ => .non200) Schema.invalid) 2 2 2 0
    [⟨0, 1, 0, 0⟩] _ h2).1

/-! Lemmas computing a complete grid-download run. -/

/-- A complete run of the column loop over a row with exactly `C`
fetchable columns: starting at column `x ≤ C` with enough fuel, the loop
returns the tiles of columns `x .. C-1` and a trace of the probes at
columns `x .. C` (the last one failing). -/
lemma export_row_run (p : Probe) (face zoom y C : Nat) (content : Nat → Nat → String)
    (hfound : ∀ x, x < C → p face zoom y x = some (.found (content y x)))
    (hfailC : probeOk (p face zoom y C) = false) :
    ∀ cfuel x, x ≤ C → C + 1 - x ≤ cfuel →
      export_row p face zoom y cfuel x =
        some ((List.range' x (C - x)).map (fun x0 => mkFile face zoom y x0 (content y x0)),
              (List.range' x (C + 1 - x)).map (fun x0 => ⟨face, zoom, y, x0⟩)) := by
  intro cfuel
  induction cfuel with
  | zero => intro x hx hf; omega
  | succ cfuel ih =>
    intro x hx hf
    rw [export_row]
    rcases Nat.lt_or_ge x C with hlt | hge
    · rw [hfound x hlt]
      dsimp only
      rw [ih (x + 1) hlt (by omega)]
      have h1 : C - x = (C - (x + 1)) + 1 := by omega
      have h2 : C + 1 - x = (C + 1 - (x + 1)) + 1 := by omega
      rw [h1, h2, List.range'_succ, List.range'_succ]
      simp
    · have hxC : x = C := by omega
      subst hxC
      rw [Nat.sub_self, show x + 1 - x = 1 from by omega]
      rcases hp : p face zoom y x with _ | o
      · simp [List.range'_one]
      · cases o with
        | found b => rw [hp] at hfailC; simp [probeOk] at hfailC
        | non200 => simp [List.range'_one]
        | transient => simp [List.range'_one]

/-- A row whose very first column probe fails. -/
lemma export_row_first_fail (p : Probe) (face zoom y cfuel : Nat) (hcf : 1 ≤ cfuel)
    (hfail : probeOk (p face zoom y 0) = false) :
    export_row p face zoom y cfuel 0 = some ([], [⟨face, zoom, y, 0⟩]) := by
  obtain ⟨cfuel, rfl⟩ := Nat.exists_eq_add_of_le hcf
  rw [Nat.add_comm, export_row]
  rcases hp : p face zoom y 0 with _ | o
  · rfl
  · cases o with
    | found b => rw [hp] at hfail; simp [probeOk] at hfail
    | non200 => rfl
    | transient => rfl

/-- A face whose very first probe fails, as a complete run. -/
lemma export_face_first_fail (p : Probe) (face zoom rfuel cfuel : Nat)
    (hrf : 1 ≤ rfuel) (hcf : 1 ≤ cfuel)
    (hfail : probeOk (p face zoom 0 0) = false) :
    export_face p face zoom rfuel cfuel 0 = some ([], [⟨face, zoom, 0, 0⟩]) := by
  obtain ⟨rfuel, rfl⟩ := Nat.exists_eq_add_of_le hrf
  rw [Nat.add_comm, export_face, export_row_first_fail p face zoom 0 cfuel hcf hfail]

/-- A complete run of the row loop over a face exposing exactly `R` rows
of exactly `C ≥ 1` columns: starting at row `y ≤ R` with enough fuel, the
loop returns the rows `y .. R-1`, each of the `C` column tiles in order,
and a trace of `C + 1` probes per row followed by the single failing probe
of row `R`. -/
lemma export_face_run (p : Probe) (face zoom R C : Nat) (content : Nat → Nat → String)
    (hC : 1 ≤ C)
    (hfound : ∀ y x, y < R → x < C → p face zoom y x = some (.found (content y x)))
    (hfail : ∀ y x, ¬(y < R ∧ x < C) → probeOk (p face zoom y x) = false)
    (cfuel : Nat) (hcf : C + 1 ≤ cfuel) :
    ∀ rfuel y, y ≤ R → R + 1 - y ≤ rfuel →
      export_face p face zoom rfuel cfuel y =
        some ((List.range' y (R - y)).map
                (fun y0 => (List.range' 0 C).map (fun x => mkFile face zoom y0 x (content y0 x))),
              ((List.range' y (R - y)).map
                (fun y0 => (List.range' 0 (C + 1)).map (fun x => (⟨face, zoom, y0, x⟩ : Coord)))).flatten
                ++ [⟨face, zoom, R, 0⟩]) := by
  intro rfuel
  induction rfuel with
  | zero => intro y hy hf; omega
  | succ rfuel ih =>
    intro y hy hf
    rw [export_face]
    rcases Nat.lt_or_ge y R with hlt | hge
    · have hrow := export_row_run p face zoom y C content (fun x hx => hfound y x hlt hx)
        (hfail y C (by omega)) cfuel 0 (by omega) (by omega)
      simp only [Nat.sub_zero] at hrow
      rcases hrl : (List.range' 0 C).map (fun x0 => mkFile face zoom y x0 (content y x0))
        with _ | ⟨t0, trest⟩
      · exfalso
        have hl := congrArg List.length hrl
        simp [List.length_range'] at hl
        omega
      · rw [hrl] at hrow
        rw [hrow]
        dsimp only
        rw [ih (y + 1) hlt (by omega)]
        dsimp only
        have hR : R - y = (R - (y + 1)) + 1 := by omega
        simp only [hR, List.range'_succ, List.map_cons, List.flatten_cons,
          List.append_assoc, hrl]
    · have hyR : y = R := by omega
      subst hyR
      rw [export_row_first_fail p face zoom y cfuel (by omega) (hfail y 0 (by omega))]
      rw [Nat.sub_self]
      simp

/-- Length of the concatenation of `R` equal-length chunks. -/
lemma flatten_const_length {α : Type} (R L : Nat) (f : Nat → List α)
    (hf : ∀ y, (f y).length = L) :
    (((List.range R).map f).flatten).length = R * L := by
  induction R with
  | zero => simp
  | succ R ih =>
    rw [List.range_succ, List.map_append, List.flatten_append]
    simp only [List.length_append, ih, List.map_cons, List.map_nil, List.flatten_cons,
      List.flatten_nil, List.append_nil, hf]
    ring

/-- C1 amended (the amendment requires `C ≥ 1` or `R = 0`, since the code
cannot represent a face of non-zero rows with zero columns — see the
counterexample): for every probe oracle and face whose provider exposes
exactly `R` rows of exactly `C` columns at the probed zoom level, the grid
download returns for that face exactly `R` rows each of length `C` in
row-major order (each tile carrying its `face_zoom_row_col` name), and
issues exactly `R*(C+1)+1` fetch probes for that face: `C` successes and
one failing probe per row, and the single failing `col = 0` probe of row
`R` that terminates the face. -/
theorem export_grid_extent (p : Probe) (zfuel rfuel cfuel face R C mz : Nat)
    (content : Nat → Nat → String) (ztr : List Coord)
    (results : List (List (List File) × List Coord))
    (hface : face < 6) (hC : 1 ≤ C ∨ R = 0)
    (hexp : exportTiles p zfuel rfuel cfuel = some ((mz, ztr), results))
    (hfound : ∀ y x, y < R → x < C → p face mz y x = some (.found (content y x)))
    (hfail : ∀ y x, ¬(y < R ∧ x < C) →
      (p face mz y x).isSome = true ∧ probeOk (p face mz y x) = false)
    (hrf : R + 1 ≤ rfuel) (hcf : C + 1 ≤ cfuel) :
    results.getD face ([], []) =
      ((List.range R).map (fun y => (List.range C).map (fun x => mkFile face mz y x (content y x))),
       ((List.range R).map
         (fun y => (List.range (C + 1)).map (fun x => (⟨face, mz, y, x⟩ : Coord)))).flatten
         ++ [⟨face, mz, R, 0⟩]) ∧
    (results.getD face ([], [])).2.length = R * (C + 1) + 1 ∧
    issuedCount p (results.getD face ([], [])).2 = R * (C + 1) + 1 := by
  have hfaces : export_faces p mz rfuel cfuel (List.range 6) = some results := by
    rw [exportTiles] at hexp
    cases h1 : get_max_zoom p zfuel with
    | none => rw [h1] at hexp; exact absurd hexp (by simp)
    | some res =>
      obtain ⟨mz', ztr'⟩ := res
      rw [h1] at hexp
      dsimp only at hexp
      cases h2 : export_faces p mz' rfuel cfuel (List.range 6) with
      | none => rw [h2] at hexp; exact absurd hexp (by simp)
      | some results' =>
        rw [h2] at hexp
        obtain ⟨hhead, hres⟩ := Prod.mk.injEq .. ▸ Option.some.injEq .. ▸ hexp
        obtain ⟨hmz, -⟩ := Prod.mk.injEq .. ▸ hhead
        subst hres
        rw [← hmz]
        exact h2
  have hlen6 : results.length = 6 := by
    simpa using export_faces_length p mz rfuel cfuel _ results hfaces
  have hgetd := export_faces_getD p mz rfuel cfuel (List.range 6) results face hfaces
    (by simpa using hface)
  rw [List.getD_eq_getElem?_getD, List.getElem?_range hface] at hgetd
  have hrun : export_face p face mz rfuel cfuel 0 =
      some ((List.range R).map
              (fun y => (List.range C).map (fun x => mkFile face mz y x (content y x))),
            ((List.range R).map
              (fun y => (List.range (C + 1)).map (fun x => (⟨face, mz, y, x⟩ : Coord)))).flatten
              ++ [⟨face, mz, R, 0⟩]) := by
    rcases hC with hC | hR0
    · have h := export_face_run p face mz R C content hC hfound
        (fun y x hyx => (hfail y x hyx).2) cfuel hcf rfuel 0 (Nat.zero_le R) (by omega)
      simp only [Nat.sub_zero, ← List.range_eq_range'] at h
      exact h
    · subst hR0
      rw [export_face_first_fail p face mz rfuel cfuel (by omega) (by omega)
        (hfail 0 0 (by omega)).2]
      simp
  have hval : results.getD face ([], []) =
      ((List.range R).map (fun y => (List.range C).map (fun x => mkFile face mz y x (content y x))),
       ((List.range R).map
         (fun y => (List.range (C + 1)).map (fun x => (⟨face, mz, y, x⟩ : Coord)))).flatten
         ++ [⟨face, mz, R, 0⟩]) := by
    have := hgetd.symm.trans hrun
    exact Option.some.injEq .. ▸ this
  have htrlen : (((List.range R).map
      (fun y => (List.range (C + 1)).map (fun x => (⟨face, mz, y, x⟩ : Coord)))).flatten
      ++ [(⟨face, mz, R, 0⟩ : Coord)]).length = R * (C + 1) + 1 := by
    rw [List.length_append,
      flatten_const_length R (C + 1) _ (fun y => by simp)]
    rfl
  refine ⟨hval, by rw [hval]; exact htrlen, ?_⟩
  rw [hval]
  have hall : ∀ c ∈ (((List.range R).map
      (fun y => (List.range (C + 1)).map (fun x => (⟨face, mz, y, x⟩ : Coord)))).flatten
      ++ [(⟨face, mz, R, 0⟩ : Coord)]), (pApply p c).isSome = true := by
    intro c hc
    rcases List.mem_append.mp hc with hc | hc
    · obtain ⟨l, hl, hcl⟩ := List.mem_flatten.mp hc
      obtain ⟨y, hy, rfl⟩ := List.mem_map.mp hl
      obtain ⟨x, hx, rfl⟩ := List.mem_map.mp hcl
      rw [List.mem_range] at hy hx
      rcases Nat.lt_or_ge x C with hxC | hxC
      · rw [pApply, hfound y x hy hxC]; rfl
      · exact (hfail y x (by omega)).1
    · rw [List.mem_singleton.mp hc]
      exact (hfail R 0 (by omega)).1
  rw [issuedCount, List.filter_eq_self.mpr hall]
  exact htrlen

/-- C1 counterexample: take the probe oracle at which no tile is ever
fetchable; in the claim's own terms this provider exposes exactly `R = 1`
rows of exactly `C = 0` columns (tile fetchable iff `y < 1 ∧ x < 0`,
i.e. never).  The grid download returns an empty grid (0 rows, not the
claimed 1 row of length 0) after a single probe (not the claimed
`1*(0+1)+1 = 2` probes). -/
theorem export_face_zero_column_counterexample :
    export_face (fun _ _ _ _ => some FetchOutcome.non200) 0 0 5 5 0 =
      some ([], [⟨0, 0, 0, 0⟩]) ∧
    ([] : List (List File)).length ≠ 1 ∧
    [(⟨0, 0, 0, 0⟩ : Coord)].length ≠ 1 * (0 + 1) + 1 :=
  ⟨rfl, by decide, by decide⟩

/-- A concrete provider: every face exposes exactly 2 rows of 3 columns
at zoom 0, and zoom level 1 is unreachable. -/
def gridProbe23 : Probe :=
  fun _ z y x =>
    some (if z = 0 ∧ y < 2 ∧ x < 3 then FetchOutcome.found "b" else FetchOutcome.non200)

/-- The per-face results of the grid download on `gridProbe23`. -/
def gridResults23 : List (List (List File) × List Coord) :=
  ((exportTiles gridProbe23 2 4 5).getD ((0, []), [])).2

/-- The zoom-probe trace of the grid download on `gridProbe23`. -/
def gridZtr23 : List Coord :=
  ((exportTiles gridProbe23 2 4 5).getD ((0, []), [])).1.2

/-- Witness for C1 amended at `gridProbe23`: face 0 yields 2 rows of 3
tiles after exactly 2*(3+1)+1 = 9 issued probes. -/
theorem export_grid_extent_witness :
    gridResults23.getD 0 ([], []) =
      ((List.range 2).map (fun y => (List.range 3).map (fun x => mkFile 0 0 y x "b")),
       ((List.range 2).map
         (fun y => (List.range (3 + 1)).map (fun x => (⟨0, 0, y, x⟩ : Coord)))).flatten
         ++ [⟨0, 0, 2, 0⟩]) ∧
    (gridResults23.getD 0 ([], [])).2.length = 2 * (3 + 1) + 1 ∧
    issuedCount gridProbe23 (gridResults23.getD 0 ([], [])).2 = 2 * (3 + 1) + 1 :=
  export_grid_extent gridProbe23 2 4 5 0 2 3 0 (fun _ _ => "b") gridZtr23 gridResults23
    (by decide) (Or.inl (by decide)) rfl
    (fun y x hy hx => by
      simp only [gridProbe23]
      rw [if_pos ⟨trivial, hy, hx⟩])
    (fun y x hyx => by
      constructor
      · rfl
      · simp only [gridProbe23]
        rw [if_neg (fun h => hyx ⟨h.2.1, h.2.2⟩)]
        rfl)
    (by decide) (by decide)

/-- C4: evaluating the engine at a full-pyramid seed URL whose
verification fetch returns a non-success status.  As claimed,
normalization returns Invalid and zero downstream fetches (zoom probes or
tile fetches) are issued; but the acquisition does not fail with an
UnreachableSource-style error — `export_full` ignores the Invalid marker,
the catch-all probe handlers swallow the substitution failures, and the
engine proceeds to hand six empty grids to the external `multistitch`. -/
theorem export_full_unreachable_seed_eval :
    searchFull "http://x/001/0/0_0.jpg" = true ∧
    url_normalize (fun _ => FetchOutcome.non200) "http://x/001/0/0_0.jpg" = Schema.invalid ∧
    export_full (fun _ => FetchOutcome.non200) "http://x/001/0/0_0.jpg" 3 3 3 =
      some (List.replicate 6 [], 0) :=
  ⟨rfl, rfl, rfl⟩

/-! Lemmas for the normalization round trip. -/

/-- A percent-free prefix passes through `%`-formatting unchanged. -/
lemma renderArgs_no_pct (args : List Nat) :
    ∀ cs rest : List Char, (∀ ch ∈ cs, ch ≠ '%') →
      renderArgs (cs ++ rest) args = (renderArgs rest args).map (fun t => cs ++ t) := by
  intro cs
  induction cs with
  | nil =>
    intro rest _
    rw [List.nil_append]
    cases renderArgs rest args <;> rfl
  | cons c cs ih =>
    intro rest h
    have hc : ¬(c = '%') := h c (List.mem_cons_self c cs)
    have ih' := ih rest (fun ch hch => h ch (List.mem_cons_of_mem c hch))
    rw [List.cons_append, renderArgs.eq_def]
    dsimp only
    rw [if_neg hc, ih']
    cases renderArgs rest args <;> rfl

/-- Stripping trailing digits keeps only characters of the original. -/
lemma mem_rstripDigitsChars {c : Char} {cs : List Char} (h : c ∈ rstripDigitsChars cs) :
    c ∈ cs := by
  rw [rstripDigitsChars, List.mem_reverse] at h
  exact List.mem_reverse.mp ((List.dropWhile_sublist Char.isDigit).mem h)

/-- Unfolding the join at a head segment. -/
lemma joinSlash_cons (p : List Char) (ps : List (List Char)) (h : ps ≠ []) :
    joinSlash (p :: ps) = p ++ '/' :: joinSlash ps := by
  cases ps with
  | nil => exact absurd rfl h
  | cons q qs => rfl

/-- Substituting the four sentinels into the normalized template rewrites
exactly the three placeholder segments, leaving every percent-free prefix
segment unchanged. -/
lemma renderArgs_template (f z r c : Nat) :
    ∀ pre : List (List Char), (∀ q ∈ pre, ∀ ch ∈ q, ch ≠ '%') →
      ∀ s3 : List Char, (∀ ch ∈ s3, ch ≠ '%') →
        renderArgs (joinSlash (pre ++ [s3 ++ ['%', 'i'], ['%', 'i'], "%i_%i.jpg".data]))
            [f, z, r, c] =
          some (joinSlash (pre ++ [s3 ++ (Nat.repr f).data, (Nat.repr z).data,
            (Nat.repr r).data ++ '_' :: ((Nat.repr c).data ++ ".jpg".data)])) := by
  intro pre
  induction pre with
  | nil =>
    intro _ s3 h3
    rw [List.nil_append, List.nil_append]
    rw [joinSlash_cons _ _ (by simp), joinSlash_cons _ _ (by simp)]
    rw [List.append_assoc]
    rw [renderArgs_no_pct [f, z, r, c] s3 _ h3]
    simp [renderArgs, joinSlash, List.append_assoc]
  | cons q pre ih =>
    intro hpre s3 h3
    have hq : ∀ ch ∈ q ++ ['/'], ch ≠ '%' := by
      intro ch hch
      rcases List.mem_append.mp hch with hch | hch
      · exact hpre q (List.mem_cons_self q pre) ch hch
      · rw [List.mem_singleton.mp hch]; decide
    rw [List.cons_append, joinSlash_cons _ _ (by simp),
      List.cons_append, joinSlash_cons _ _ (by simp)]
    rw [List.append_cons q '/' (joinSlash (pre ++ [s3 ++ ['%', 'i'], ['%', 'i'], "%i_%i.jpg".data]))]
    rw [renderArgs_no_pct [f, z, r, c] (q ++ ['/']) _ hq]
    rw [ih (fun q' hq' => hpre q' (List.mem_cons_of_mem q hq')) s3 h3]
    simp

/-- The successful path of normalization: a reachable URL with at least
three slash-segments whose last segment contains an underscore becomes
the template with the three placeholder segments. -/
lemma url_normalize_template (fetch : String → FetchOutcome) (url body : String)
    (pre : List (List Char)) (p3 p2 p1 : List Char)
    (hreach : fetch url = .found body)
    (hsplit : splitSlash url.data = pre ++ [p3, p2, p1])
    (hund : '_' ∈ p1) :
    url_normalize fetch url =
      .str ⟨joinSlash (pre ++ [rstripDigitsChars p3 ++ ['%', 'i'], ['%', 'i'],
        "%i_%i.jpg".data])⟩ := by
  rw [url_normalize, hreach]
  dsimp only
  rw [hsplit]
  have hlast : (pre ++ [p3, p2, p1]).getLastD [] = p1 := by
    rw [show pre ++ [p3, p2, p1] = (pre ++ [p3, p2]) ++ [p1] from by simp,
      List.getLastD_concat]
  rw [hlast, if_pos hund]
  have hrev : (pre ++ [p3, p2, p1]).reverse = p1 :: p2 :: p3 :: pre.reverse := by simp
  rw [rewriteParts, hrev]
  dsimp only
  rw [List.reverse_reverse]

/-- C5 amended (the amendment requires at least three slash-segments —
see the counterexample — and, for the round trip to be literal, that the
segments ahead of the placeholders are percent-free, since Python
`%`-formatting would otherwise consume them): for every reachable URL
whose split has at least three segments, the last containing an
underscore, normalization produces the template whose last segment is the
row/column dual placeholder, second-to-last the zoom placeholder, and
third-to-last itself with trailing digits stripped plus the face
placeholder; substituting the sentinels `(f, z, r, c)` into that template
yields exactly the URL with those same three segments rewritten to
`...face`, `zoom`, and `row_col.jpg`. -/
theorem url_normalize_round_trip (fetch : String → FetchOutcome) (url body : String)
    (pre : List (List Char)) (p3 p2 p1 : List Char)
    (hreach : fetch url = .found body)
    (hsplit : splitSlash url.data = pre ++ [p3, p2, p1])
    (hund : '_' ∈ p1)
    (hpct : ∀ q ∈ pre, ∀ ch ∈ q, ch ≠ '%') (hp3 : ∀ ch ∈ p3, ch ≠ '%')
    (f z r c : Nat) :
    url_normalize fetch url =
      .str ⟨joinSlash (pre ++ [rstripDigitsChars p3 ++ ['%', 'i'], ['%', 'i'],
        "%i_%i.jpg".data])⟩ ∧
    Schema.subst (url_normalize fetch url) f z r c =
      some ⟨joinSlash (pre ++ [rstripDigitsChars p3 ++ (Nat.repr f).data, (Nat.repr z).data,
        (Nat.repr r).data ++ '_' :: ((Nat.repr c).data ++ ".jpg".data)])⟩ := by
  have h1 := url_normalize_template fetch url body pre p3 p2 p1 hreach hsplit hund
  refine ⟨h1, ?_⟩
  rw [h1, Schema.subst]
  rw [show (⟨joinSlash (pre ++ [rstripDigitsChars p3 ++ ['%', 'i'], ['%', 'i'],
      "%i_%i.jpg".data])⟩ : String).data =
    joinSlash (pre ++ [rstripDigitsChars p3 ++ ['%', 'i'], ['%', 'i'], "%i_%i.jpg".data])
    from rfl]
  rw [renderArgs_template f z r c pre hpct (rstripDigitsChars p3)
    (fun ch hch => hp3 ch (mem_rstripDigitsChars hch))]
  rfl

/-- C5 counterexample: the reachable URL `0_0.jpg` has a single
slash-segment, which is its last segment and contains an underscore, yet
normalization yields Invalid (Python raises IndexError on `parts[-3]`),
not a template — the claimed round trip fails for URLs with fewer than
three slash-segments. -/
theorem url_normalize_short_url_counterexample :
    (fun _ => FetchOutcome.found "") "0_0.jpg" = FetchOutcome.found "" ∧
    '_' ∈ (splitSlash "0_0.jpg".data).getLastD [] ∧
    url_normalize (fun _ => FetchOutcome.found "") "0_0.jpg" = Schema.invalid :=
  ⟨rfl, by decide, rfl⟩

/-- Witness for C5 amended at the reachable URL `h/a1/2/3_4.jpg` with
sentinels `(7, 8, 9, 10)`: the template is `h/a%i/%i/%i_%i.jpg` and the
substitution yields `h/a7/8/9_10.jpg`. -/
theorem url_normalize_round_trip_witness :
    url_normalize (fun _ => FetchOutcome.found "") "h/a1/2/3_4.jpg" =
      .str ⟨joinSlash ([['h']] ++ [rstripDigitsChars ['a', '1'] ++ ['%', 'i'], ['%', 'i'],
        "%i_%i.jpg".data])⟩ ∧
    Schema.subst (url_normalize (fun _ => FetchOutcome.found "") "h/a1/2/3_4.jpg") 7 8 9 10 =
      some ⟨joinSlash ([['h']] ++ [rstripDigitsChars ['a', '1'] ++ (Nat.repr 7).data,
        (Nat.repr 8).data, (Nat.repr 9).data ++ '_' :: ((Nat.repr 10).data ++ ".jpg".data)])⟩ :=
  url_normalize_round_trip (fun _ => FetchOutcome.found "") "h/a1/2/3_4.jpg" ""
    [['h']] ['a', '1'] ['2'] "3_4.jpg".data rfl (by decide) (by decide)
    (by decide) (by decide) 7 8 9 10

end Pix360
